import Mathlib

/-!
Verification development for the Zone.EU Terraform provider
(`internal/provider/client.go` and the per-record-kind resource handlers).

The Go code is shallowly embedded: pure helpers become Lean functions, the
HTTP transport loop becomes a function over an oracle of per-attempt HTTP
results together with an explicit clock, and each resource operation becomes
a function over an oracle of client-call outcomes that also returns the trace
of API calls it issued.  Strings model Go strings; Go `error` values are
modelled by their message strings, since the code branches on
`strings.Contains(err.Error(), ...)` only.
-/

namespace ZoneEU

/-! ## Go string helpers (package `strings`, `strconv`) -/

/-- Contiguous-substring test on character lists. -/
def listContainsSub : List Char → List Char → Bool
  | hay, needle =>
    match hay with
    | [] => needle.isEmpty
    | _ :: t => needle.isPrefixOf hay || listContainsSub t needle

/-- Go `strings.Contains(s, substr)`. -/
def goContains (s substr : String) : Bool :=
  listContainsSub s.toList substr.toList

/-- Go `strings.HasSuffix(s, suffix)`. -/
def goHasSuffix (s suffix : String) : Bool :=
  suffix.toList.isSuffixOf s.toList

/-- Go `strings.TrimSuffix(s, suffix)`: drops `suffix` from the end of `s`
when present, otherwise returns `s` unchanged. -/
def goTrimSuffix (s suffix : String) : String :=
  if goHasSuffix s suffix then
    String.mk (s.toList.take (s.toList.length - suffix.toList.length))
  else s

/-- Decimal digits to a number; `none` if any character is not a digit. -/
def decDigits (l : List Char) : Option Nat :=
  l.foldl
    (fun acc c =>
      match acc with
      | none => none
      | some n => if c.isDigit then some (n * 10 + (c.toNat - 48)) else none)
    (some 0)

/-- Go `strconv.Atoi`: an optional sign followed by at least one digit. -/
def goAtoi (s : String) : Option Int :=
  match s.toList with
  | [] => none
  | '+' :: rest =>
    if rest = [] then none else (decDigits rest).map Int.ofNat
  | '-' :: rest =>
    if rest = [] then none else (decDigits rest).map (fun n => -(n : Int))
  | l => (decDigits l).map Int.ofNat

/-- Split a character list at the first occurrence of `c`; `none` when `c`
does not occur. -/
def splitFirstChar (c : Char) : List Char → Option (List Char × List Char)
  | [] => none
  | x :: xs =>
    if x = c then some ([], xs)
    else
      match splitFirstChar c xs with
      | some (a, b) => some (x :: a, b)
      | none => none

/-- Go `strings.SplitN(s, sep, 2)` for a single-character separator:
two pieces split at the first occurrence, or the whole string when the
separator does not occur. -/
def goSplitN2 (c : Char) (s : List Char) : List (List Char) :=
  match splitFirstChar c s with
  | some (a, b) => [a, b]
  | none => [s]

/-! ## Data model (`client.go`) -/

/-- Go `DNSRecord` (client.go lines 240-259): the generic DNS record with all
kind-specific fields.  Go zero values are the field defaults. -/
structure DNSRecord where
  id : String := ""
  name : String := ""
  destination : String := ""
  priority : Int := 0
  weight : Int := 0
  port : Int := 0
  flag : Int := 0
  tag : String := ""
  certificateUsage : Int := 0
  selector : Int := 0
  matchingType : Int := 0
  algorithm : Int := 0
  type : Int := 0
deriving Repr, DecidableEq

/-- The loop body of `FindARecordByNameWithContext` (the identical loop is
repeated for every record kind): scan the listed records and return the
first whose zone-suffix-stripped name equals the stripped search name, or
whose raw name equals the raw search name. -/
def findRecordLoop (zoneSuffix searchName name : String) :
    List DNSRecord → Option DNSRecord
  | [] => none
  | r :: rs =>
    if goTrimSuffix r.name zoneSuffix = searchName ∨ r.name = name then some r
    else findRecordLoop zoneSuffix searchName name rs

/-- Go `FindARecordByNameWithContext` (client.go / part_008 lines 305-323), after
the `List` call returned `records`: normalize the search name by stripping the
zone suffix, then scan. -/
def findRecordByName (zone name : String) (records : List DNSRecord) :
    Option DNSRecord :=
  findRecordLoop ("." ++ zone) (goTrimSuffix name ("." ++ zone)) name records

/-- The loop body of `FindAllARecordsByNameWithContext` (part_008 lines
330-349): collect every record matching the normalized name. -/
def findAllRecordsLoop (zoneSuffix searchName name : String) :
    List DNSRecord → List DNSRecord
  | [] => []
  | r :: rs =>
    if goTrimSuffix r.name zoneSuffix = searchName ∨ r.name = name then
      r :: findAllRecordsLoop zoneSuffix searchName name rs
    else findAllRecordsLoop zoneSuffix searchName name rs

/-- Go `FindAllARecordsByNameWithContext` after the `List` call. -/
def findAllRecordsByName (zone name : String) (records : List DNSRecord) :
    List DNSRecord :=
  findAllRecordsLoop ("." ++ zone) (goTrimSuffix name ("." ++ zone)) name records

/-- The match predicate of the find loops, as a boolean. -/
def nameMatches (zone search : String) (r : DNSRecord) : Bool :=
  decide (goTrimSuffix r.name ("." ++ zone) = goTrimSuffix search ("." ++ zone)
    ∨ r.name = search)

/-! ## JSON values and Go `encoding/json` unmarshalling

Response bodies are modelled as `Option Json`: `none` is a body that is not
syntactically valid JSON, `some j` a body that parses as the value `j`.
Unmarshalling into the Go record/domain structs follows the documented
`encoding/json` semantics: a JSON `null` leaves the target at its zero value
(for a slice: the empty slice) without error; type mismatches error; absent
fields keep the zero value; unknown fields are ignored. -/

inductive Json where
  | null
  | bool (b : Bool)
  | num (n : Int)
  | str (s : String)
  | arr (elems : List Json)
  | obj (fields : List (String × Json))
deriving Repr

/-- Last binding wins, as for duplicate keys in Go `encoding/json`. -/
def lookupField (fields : List (String × Json)) (key : String) : Option Json :=
  fields.foldl (fun acc kv => if kv.1 = key then some kv.2 else acc) none

/-- Decode a JSON value sitting in a Go `string` field. -/
def decodeStringField (fields : List (String × Json)) (key : String) :
    Except String String :=
  match lookupField fields key with
  | none => .ok ""
  | some .null => .ok ""
  | some (.str s) => .ok s
  | some _ => .error ("cannot unmarshal value into string field " ++ key)

/-- Decode a JSON value sitting in a Go `int` field. -/
def decodeIntField (fields : List (String × Json)) (key : String) :
    Except String Int :=
  match lookupField fields key with
  | none => .ok 0
  | some .null => .ok 0
  | some (.num n) => .ok n
  | some _ => .error ("cannot unmarshal value into int field " ++ key)

/-- Decode a JSON value sitting in a Go `bool` field. -/
def decodeBoolField (fields : List (String × Json)) (key : String) :
    Except String Bool :=
  match lookupField fields key with
  | none => .ok false
  | some .null => .ok false
  | some (.bool b) => .ok b
  | some _ => .error ("cannot unmarshal value into bool field " ++ key)

/-- Decode a JSON value sitting in a Go `*int` field. -/
def decodeOptIntField (fields : List (String × Json)) (key : String) :
    Except String (Option Int) :=
  match lookupField fields key with
  | none => .ok none
  | some .null => .ok none
  | some (.num n) => .ok (some n)
  | some _ => .error ("cannot unmarshal value into int pointer field " ++ key)

/-- Unmarshal one JSON value into a `DNSRecord` (the struct tags of
client.go lines 240-259). -/
def decodeDNSRecord (j : Json) : Except String DNSRecord :=
  match j with
  | .null => .ok {}
  | .obj fs => do
    let id ← decodeStringField fs "id"
    let name ← decodeStringField fs "name"
    let destination ← decodeStringField fs "destination"
    let priority ← decodeIntField fs "priority"
    let weight ← decodeIntField fs "weight"
    let port ← decodeIntField fs "port"
    let flag ← decodeIntField fs "flag"
    let tag ← decodeStringField fs "tag"
    let certificateUsage ← decodeIntField fs "certificate_usage"
    let selector ← decodeIntField fs "selector"
    let matchingType ← decodeIntField fs "matching_type"
    let algorithm ← decodeIntField fs "algorithm"
    let type ← decodeIntField fs "type"
    .ok { id := id, name := name, destination := destination,
          priority := priority, weight := weight, port := port,
          flag := flag, tag := tag, certificateUsage := certificateUsage,
          selector := selector, matchingType := matchingType,
          algorithm := algorithm, type := type }
  | _ => .error "cannot unmarshal value into record struct"

/-- Sequential element decoding of a JSON array, returning the first
element's error, as Go does. -/
def decodeElems (dec : Json → Except String α) :
    List Json → Except String (List α)
  | [] => .ok []
  | x :: xs =>
    match dec x with
    | .error e => .error e
    | .ok y =>
      match decodeElems dec xs with
      | .error e => .error e
      | .ok ys => .ok (y :: ys)

/-- Go `json.Unmarshal(body, &records)` for `records : []DNSRecord`:
`null` yields the empty slice, an array decodes element-wise, and any other
value is a type error. -/
def unmarshalDNSRecords (j : Json) : Except String (List DNSRecord) :=
  match j with
  | .null => .ok []
  | .arr xs => decodeElems decodeDNSRecord xs
  | _ => .error "cannot unmarshal value into record slice"

/-- Go `parseDNSRecordResponse` (client.go lines 59-68): unmarshal the body as
a record array, fail on a parse error, fail with "empty response from API"
on a zero-length result, otherwise return the first element. -/
def parseDNSRecordResponse (body : Option Json) : Except String DNSRecord :=
  match body with
  | none => .error "error parsing response: invalid JSON"
  | some j =>
    match unmarshalDNSRecords j with
    | .error e => .error ("error parsing response: " ++ e)
    | .ok [] => .error "empty response from API"
    | .ok (r :: _) => .ok r

/-! ## Domain management (`client.go` lines 1009-1122) -/

/-- Go `Domain` (client.go lines 1009-1024). -/
structure Domain where
  resourceURL : String := ""
  name : String := ""
  delegated : String := ""
  expires : String := ""
  dnssec : Bool := false
  autorenew : Bool := false
  renewOrder : String := ""
  renewalNotifications : Bool := false
  hasPendingTrade : Option Int := none
  hasPendingDNSSEC : Bool := false
  reactivate : Bool := false
  authKeyEnabled : Bool := false
  signingRequired : Bool := false
  nameserversCustom : Bool := false
deriving Repr, DecidableEq

/-- Unmarshal one JSON value into a `Domain` (struct tags of client.go
lines 1009-1024). -/
def decodeDomain (j : Json) : Except String Domain :=
  match j with
  | .null => .ok {}
  | .obj fs => do
    let resourceURL ← decodeStringField fs "resource_url"
    let name ← decodeStringField fs "name"
    let delegated ← decodeStringField fs "delegated"
    let expires ← decodeStringField fs "expires"
    let dnssec ← decodeBoolField fs "dnssec"
    let autorenew ← decodeBoolField fs "autorenew"
    let renewOrder ← decodeStringField fs "renew_order"
    let renewalNotifications ← decodeBoolField fs "renewal_notifications"
    let hasPendingTrade ← decodeOptIntField fs "has_pending_trade"
    let hasPendingDNSSEC ← decodeBoolField fs "has_pending_dnssec"
    let reactivate ← decodeBoolField fs "reactivate"
    let authKeyEnabled ← decodeBoolField fs "auth_key_enabled"
    let signingRequired ← decodeBoolField fs "signing_required"
    let nameserversCustom ← decodeBoolField fs "nameservers_custom"
    .ok { resourceURL := resourceURL, name := name, delegated := delegated,
          expires := expires, dnssec := dnssec, autorenew := autorenew,
          renewOrder := renewOrder,
          renewalNotifications := renewalNotifications,
          hasPendingTrade := hasPendingTrade,
          hasPendingDNSSEC := hasPendingDNSSEC, reactivate := reactivate,
          authKeyEnabled := authKeyEnabled,
          signingRequired := signingRequired,
          nameserversCustom := nameserversCustom }
  | _ => .error "cannot unmarshal value into domain struct"

/-- Go `json.Unmarshal(body, &domains)` for `domains : []Domain`. -/
def unmarshalDomains (j : Json) : Except String (List Domain) :=
  match j with
  | .null => .ok []
  | .arr xs => decodeElems decodeDomain xs
  | _ => .error "cannot unmarshal value into domain slice"

/-- Go `GetDomain` (client.go lines 1060-1074), with the transport call's
outcome supplied as `resp`: a transport error passes through, the body is
unmarshalled as a domain array, and a zero-length result yields the error
"domain not found: name". -/
def getDomain (name : String) (resp : Except String (Option Json)) :
    Except String Domain :=
  match resp with
  | .error e => .error e
  | .ok none => .error "error parsing response: invalid JSON"
  | .ok (some j) =>
    match unmarshalDomains j with
    | .error e => .error ("error parsing response: " ++ e)
    | .ok [] => .error ("domain not found: " ++ name)
    | .ok (d :: _) => .ok d

/-- Go `DomainPreferences` (client.go lines 1034-1037). -/
structure DomainPreferences where
  resourceURL : String := ""
  renewalNotifications : Bool := false
deriving Repr, DecidableEq

/-- Go `json.Marshal` of a `DomainPreferences` value (`resource_url` has
`omitempty`). -/
def encodeDomainPreferences (p : DomainPreferences) : Json :=
  .obj ((if p.resourceURL = "" then []
         else [("resource_url", Json.str p.resourceURL)]) ++
        [("renewal_notifications", Json.bool p.renewalNotifications)])

/-- An HTTP request as assembled by the client layer. -/
structure ApiRequest where
  method : String
  path : String
  body : Option Json
deriving Repr

/-- Go `UpdateDomainPreferences` (client.go lines 1109-1122) issues exactly this
single request: a PUT against the preferences sub-resource path. -/
def updateDomainPreferencesRequest (name : String) (prefs : DomainPreferences) :
    ApiRequest :=
  { method := "PUT", path := "/domain/" ++ name ++ "/preferences",
    body := some (encodeDomainPreferences prefs) }

/-- Remote server state relevant to domains: the domain collection and the
per-domain preferences sub-resource. -/
structure ZoneServerState where
  domains : List (String × Domain)
  preferences : List (String × DomainPreferences)
deriving Repr

/-- Modelled from the spec: the remote preferences endpoint
(`PUT /domain/{name}/preferences`) is described in §3/§4.4 as a sub-resource
"fetched/updated independently" of the parent domain; a PUT against it
replaces only the named domain's preferences entry. -/
def applyPreferencesPut (st : ZoneServerState) (name : String)
    (p : DomainPreferences) : ZoneServerState :=
  { st with
    preferences :=
      (name, p) :: st.preferences.filter (fun kv => kv.1 ≠ name) }

/-- Running `UpdateDomainPreferences` against the server model: the new
server state together with the list of requests the client issued. -/
def runUpdateDomainPreferences (st : ZoneServerState) (name : String)
    (p : DomainPreferences) : ZoneServerState × List ApiRequest :=
  (applyPreferencesPut st name p, [updateDomainPreferencesRequest name p])

/-! ## Transport core (`client.go` lines 17-237)

The HTTP transport is embedded with an explicit clock in whole seconds
(every duration in the source — `rateLimitResetPeriod = time.Minute`, the
`Retry-After` header — is a whole number of seconds).  The outcome of the
`httpClient.Do` call of attempt `i` is supplied by an oracle
`responses : Nat → HttpResult`; requests themselves are instantaneous in the
model.  Context cancellation is modelled by the instant `cancelAt` at which
the context becomes done; the loop observes it exactly where the source
consults `ctx`: at the `select` at the top of each iteration, and inside
`httpClient.Do` (a request issued on a done context fails). -/

/-- An HTTP response: status plus the headers the client reads. `none`
models an absent header (Go's `Header.Get` returning `""`). -/
structure HttpResponse where
  status : Nat
  retryAfterHeader : Option String := none
  statusMessageHeader : Option String := none
  ratelimitLimitHeader : Option String := none
  ratelimitRemainingHeader : Option String := none
  body : String := ""
deriving Repr, DecidableEq

/-- Outcome of one `httpClient.Do` call. -/
inductive HttpResult where
  | response (r : HttpResponse)
  | netError (e : String)
deriving Repr, DecidableEq

/-- The client's mutable rate-limit fields (client.go lines 34-37);
`rateLimitResetAt` is an absolute model time in seconds. -/
structure RateState where
  rateLimitLimit : Int
  rateLimitRemaining : Int
  rateLimitResetAt : Int
deriving Repr, DecidableEq

/-- Go `NewClient` (client.go lines 41-49): counters start at the default
ceiling of 60. -/
def newClientState : RateState :=
  { rateLimitLimit := 60, rateLimitRemaining := 60, rateLimitResetAt := 0 }

/-- Go `updateRateLimitInfo` (client.go lines 84-99): adopt the
`X-Ratelimit-Limit` / `X-Ratelimit-Remaining` headers when present and
parsable, leaving prior state untouched otherwise. -/
def updateRateLimitInfo (st : RateState) (r : HttpResponse) : RateState :=
  let st1 :=
    match r.ratelimitLimitHeader with
    | some h =>
      match goAtoi h with
      | some v => { st with rateLimitLimit := v }
      | none => st
    | none => st
  match r.ratelimitRemainingHeader with
  | some h =>
    match goAtoi h with
    | some v => { st1 with rateLimitRemaining := v }
    | none => st1
  | none => st1

/-- The `Retry-After` extraction of `doRequestOnce` (client.go lines
212-218): seconds parsed with `strconv.Atoi`, defaulting to 60 seconds
(`rateLimitResetPeriod`) when the header is absent or unparsable. -/
def parseRetryAfter (h : Option String) : Int :=
  match h with
  | none => 60
  | some s =>
    if s = "" then 60
    else
      match goAtoi s with
      | some n => n
      | none => 60

/-- Error classification of a single request (the `*RateLimitError` type of
client.go lines 168-175 and the plain `fmt.Errorf` errors). -/
inductive ReqError where
  | rateLimit (retryAfter : Int) (message : String)
  | other (message : String)
deriving Repr, DecidableEq

/-- Go `doRequestOnce` (client.go lines 178-237), given the `httpClient.Do`
outcome: a transport failure is wrapped, every received response first
updates the rate-limit state, a 429 becomes a `RateLimitError` carrying the
parsed `Retry-After`, any other non-2xx status becomes an "API error"
message (with the `X-Status-Message` header appended when non-empty), and a
2xx returns the body. -/
def doRequestOnce (st : RateState) (res : HttpResult) :
    RateState × Except ReqError String :=
  match res with
  | .netError e => (st, .error (.other ("error performing request: " ++ e)))
  | .response r =>
    let st1 := updateRateLimitInfo st r
    if r.status = 429 then
      (st1, .error (.rateLimit (parseRetryAfter r.retryAfterHeader)
        (r.statusMessageHeader.getD "")))
    else if r.status < 200 ∨ r.status ≥ 300 then
      let m := r.statusMessageHeader.getD ""
      let errMsg :=
        if m = "" then r.body
        else r.body ++ " (X-Status-Message: " ++ m ++ ")"
      (st1, .error (.other ("API error (status " ++ toString r.status
        ++ "): " ++ errMsg)))
    else (st1, .ok r.body)

/-- Go `waitForRateLimit` (client.go lines 102-119): when the remaining-request
counter is exhausted and the reset time is in the future, sleep until the
reset time (a plain `time.Sleep`, not cancellable); returns the new clock. -/
def waitForRateLimit (now : Int) (st : RateState) : Int :=
  if st.rateLimitRemaining > 0 then now
  else if st.rateLimitResetAt > now then st.rateLimitResetAt
  else now

/-- Whether the context is done at model time `now`. -/
def ctxDone (cancelAt : Option Int) (now : Int) : Bool :=
  match cancelAt with
  | some t => decide (t ≤ now)
  | none => false

/-- Final outcome of `doRequestWithContext`. -/
inductive RequestOutcome where
  | success (body : String)
  | canceled
  | failure (e : ReqError)
  | maxRetriesExceeded (last : ReqError)
deriving Repr, DecidableEq

/-- One full run of the retry loop: its outcome, the model time at which the
call returns, the number of `doRequestOnce` attempts issued, the backoff
sleep durations taken after 429s (in order), and the final rate-limit
state. -/
structure RunResult where
  outcome : RequestOutcome
  finishTime : Int
  attemptsMade : Nat
  sleeps : List Int
  finalState : RateState
deriving Repr, DecidableEq

/-- Go `maxRetries` (client.go line 23). -/
def maxRetries : Nat := 3

/-- The body of `doRequestWithContext` (client.go lines 128-165), recursing
on the remaining attempt budget.  Each iteration: observe cancellation at
the top (`select` on `ctx.Done()`), run `waitForRateLimit` (an uncancellable
sleep), issue the attempt (which fails if the context became done during
that sleep), and on a `RateLimitError` zero the remaining counter, set the
reset time, sleep the retry-after duration (again a plain `time.Sleep`,
advancing the clock by at least zero) and retry; any other error returns
immediately.  An exhausted budget wraps the last rate-limit error. -/
def doRequestLoop (responses : Nat → HttpResult) (cancelAt : Option Int) :
    Nat → Nat → Int → RateState → Option ReqError → Nat → List Int → RunResult
  | 0, _, now, st, lastErr, attempts, sleeps =>
    { outcome := .maxRetriesExceeded (lastErr.getD (.other "")),
      finishTime := now, attemptsMade := attempts,
      sleeps := sleeps.reverse, finalState := st }
  | rem + 1, attempt, now, st, _lastErr, attempts, sleeps =>
    if ctxDone cancelAt now then
      { outcome := .canceled, finishTime := now, attemptsMade := attempts,
        sleeps := sleeps.reverse, finalState := st }
    else
      let now1 := waitForRateLimit now st
      let res :=
        if ctxDone cancelAt now1 then HttpResult.netError "context canceled"
        else responses attempt
      match doRequestOnce st res with
      | (st1, .ok body) =>
        { outcome := .success body, finishTime := now1,
          attemptsMade := attempts + 1, sleeps := sleeps.reverse,
          finalState := st1 }
      | (st1, .error (.rateLimit ra msg)) =>
        let st2 := { st1 with rateLimitRemaining := 0,
                              rateLimitResetAt := now1 + ra }
        doRequestLoop responses cancelAt rem (attempt + 1)
          (now1 + max ra 0) st2 (some (.rateLimit ra msg))
          (attempts + 1) (ra :: sleeps)
      | (st1, .error (.other m)) =>
        { outcome := .failure (.other m), finishTime := now1,
          attemptsMade := attempts + 1, sleeps := sleeps.reverse,
          finalState := st1 }

/-- Go `doRequestWithContext` (client.go lines 128-165). -/
def doRequestWithContext (responses : Nat → HttpResult)
    (cancelAt : Option Int) (now : Int) (st : RateState) : RunResult :=
  doRequestLoop responses cancelAt maxRetries 0 now st none 0 []

/-! ## Resource operations (the per-record-kind handlers)

Each handler is embedded as a function of the desired-state model and an
oracle `RecordEnv` giving the outcome of each client call (keyed by the
call's arguments, which no operation repeats with different outcomes), and
returns the Terraform outcome together with the trace of client calls it
issued.  Go client errors are their message strings. -/

/-- Outcome oracle for the typed client calls a handler can make. -/
structure RecordEnv where
  findByName : String → String → Except String (Option DNSRecord)
  findAllByName : String → String → Except String (List DNSRecord)
  create : String → DNSRecord → Except String DNSRecord
  update : String → String → DNSRecord → Except String DNSRecord
  delete : String → String → Except String Unit

/-- A client call as recorded in a handler's trace. -/
inductive ApiCall where
  | findByName (zone name : String)
  | findAllByName (zone name : String)
  | create (zone : String) (record : DNSRecord)
  | update (zone id : String) (record : DNSRecord)
  | delete (zone id : String)
deriving Repr, DecidableEq

/-- Result of a resource operation: the new state, or a
`resp.Diagnostics.AddError(summary, detail)`. -/
inductive OpResult (σ : Type) where
  | ok (state : σ)
  | err (summary detail : String)
deriving Repr, DecidableEq

/-- Number of Create calls in a trace. -/
def createCallCount (trace : List ApiCall) : Nat :=
  (trace.filter fun c =>
    match c with
    | .create _ _ => true
    | _ => false).length

/-- Number of Delete calls in a trace. -/
def deleteCallCount (trace : List ApiCall) : Nat :=
  (trace.filter fun c =>
    match c with
    | .delete _ _ => true
    | _ => false).length

/-- Modelled from the spec: `parseRecordID` is called by every record
handler's Read/Update/Delete but its definition is not among the provided
sources.  The spec's resource-operation contract (§6) fixes the external id
format `"zone/record_id"`; the parse splits at the first `/` and requires
both pieces non-empty, mirroring the handlers' `ImportState` validation. -/
def parseRecordID (id : String) : Except String (String × String) :=
  match goSplitN2 '/' id.toList with
  | [a, b] =>
    if a.isEmpty || b.isEmpty then
      .error ("invalid ID format: " ++ id)
    else .ok (String.mk a, String.mk b)
  | _ => .error ("invalid ID format: " ++ id)

/-- State model of `zone_dns_cname_record`
(resource_dns_cname_record.go lines 29-36). -/
structure CNAMERecordModel where
  id : String := ""
  zone : String := ""
  name : String := ""
  destination : String := ""
  recordID : String := ""
  forceRecreate : Bool := false
deriving Repr, DecidableEq

/-- The fresh-create tail of `DNSCNAMERecordResource.Create`
(resource_dns_cname_record.go lines 143-174): attempt the Create; on an
error containing "zone_conflict", look the record up by name and, when the
lookup succeeds and finds one, adopt its id as this Create's result;
otherwise (lookup error or nothing found) surface the original creation
error. -/
def cnameCreateFresh (env : RecordEnv) (data : CNAMERecordModel)
    (callsBefore : List ApiCall) : OpResult CNAMERecordModel × List ApiCall :=
  let record : DNSRecord :=
    { name := data.name, destination := data.destination }
  match env.create data.zone record with
  | .ok created =>
    (.ok { data with id := data.zone ++ "/" ++ created.id,
                     recordID := created.id },
     callsBefore ++ [.create data.zone record])
  | .error e =>
    if goContains e "zone_conflict" then
      match env.findByName data.zone data.name with
      | .ok (some existing) =>
        (.ok { data with id := data.zone ++ "/" ++ existing.id,
                         recordID := existing.id },
         callsBefore ++ [.create data.zone record,
                         .findByName data.zone data.name])
      | .ok none =>
        (.err "Client Error" ("Unable to create CNAME record, got error: "
           ++ e),
         callsBefore ++ [.create data.zone record,
                         .findByName data.zone data.name])
      | .error _ =>
        (.err "Client Error" ("Unable to create CNAME record, got error: "
           ++ e),
         callsBefore ++ [.create data.zone record,
                         .findByName data.zone data.name])
    else
      (.err "Client Error" ("Unable to create CNAME record, got error: "
         ++ e),
       callsBefore ++ [.create data.zone record])

/-- Go `DNSCNAMERecordResource.Create` (resource_dns_cname_record.go lines
102-174): with force_recreate, first look for an existing record and update
it in place; otherwise fall through to the fresh create with conflict
adoption. -/
def cnameCreate (env : RecordEnv) (data : CNAMERecordModel) :
    OpResult CNAMERecordModel × List ApiCall :=
  if data.forceRecreate then
    match env.findByName data.zone data.name with
    | .error e =>
      (.err "Client Error"
         ("Unable to check for existing CNAME record, got error: " ++ e),
       [.findByName data.zone data.name])
    | .ok (some existing) =>
      let record : DNSRecord :=
        { name := data.name, destination := data.destination }
      match env.update data.zone existing.id record with
      | .error e =>
        (.err "Client Error"
           ("Unable to update existing CNAME record for force_recreate, got error: "
             ++ e),
         [.findByName data.zone data.name,
          .update data.zone existing.id record])
      | .ok updated =>
        (.ok { data with id := data.zone ++ "/" ++ updated.id,
                         recordID := updated.id },
         [.findByName data.zone data.name,
          .update data.zone existing.id record])
    | .ok none => cnameCreateFresh env data [.findByName data.zone data.name]
  else cnameCreateFresh env data []

/-- Go `DNSCNAMERecordResource.Update` (resource_dns_cname_record.go lines
207-270): attempt the Update; on an error containing "zone_conflict" with
force_recreate enabled, find ALL records matching the name, delete each one
(delete outcomes only affect logging — a 404 is ignored, any other failure
is logged — and never abort the loop), then create a fresh record and adopt
its id. -/
def cnameUpdate (env : RecordEnv) (data : CNAMERecordModel) :
    OpResult CNAMERecordModel × List ApiCall :=
  match parseRecordID data.id with
  | .error e => (.err "Parse Error" ("Unable to parse ID: " ++ e), [])
  | .ok (zone, recordID) =>
    let record : DNSRecord :=
      { name := data.name, destination := data.destination }
    match env.update zone recordID record with
    | .ok _ => (.ok data, [.update zone recordID record])
    | .error e =>
      if goContains e "zone_conflict" && data.forceRecreate then
        match env.findAllByName zone data.name with
        | .error fe =>
          (.err "Client Error" ("Unable to find existing records: " ++ fe),
           [.update zone recordID record, .findAllByName zone data.name])
        | .ok allRecords =>
          let deletes := allRecords.map fun r => ApiCall.delete zone r.id
          match env.create zone record with
          | .error ce =>
            (.err "Client Error"
               ("Unable to recreate CNAME record after deleting duplicates: "
                 ++ ce),
             [.update zone recordID record, .findAllByName zone data.name]
               ++ deletes ++ [.create zone record])
          | .ok created =>
            (.ok { data with recordID := created.id,
                             id := zone ++ "/" ++ created.id },
             [.update zone recordID record, .findAllByName zone data.name]
               ++ deletes ++ [.create zone record])
      else
        (.err "Client Error" ("Unable to update CNAME record, got error: "
           ++ e),
         [.update zone recordID record])

/-- Go `DNSCNAMERecordResource.Delete` (resource_dns_cname_record.go lines
272-296): a delete error containing "404" or "not found" is treated as
success; any other error is surfaced. -/
def cnameDelete (env : RecordEnv) (data : CNAMERecordModel) :
    OpResult Unit × List ApiCall :=
  match parseRecordID data.id with
  | .error e => (.err "Parse Error" ("Unable to parse ID: " ++ e), [])
  | .ok (zone, recordID) =>
    match env.delete zone recordID with
    | .ok _ => (.ok (), [.delete zone recordID])
    | .error e =>
      if goContains e "404" || goContains e "not found" then
        (.ok (), [.delete zone recordID])
      else
        (.err "Client Error" ("Unable to delete CNAME record, got error: "
           ++ e),
         [.delete zone recordID])

/-- State model of `zone_dns_mx_record` (resource_dns_mx_record.go). -/
structure MXRecordModel where
  id : String := ""
  zone : String := ""
  name : String := ""
  destination : String := ""
  priority : Int := 0
  recordID : String := ""
deriving Repr, DecidableEq

/-- Go `DNSMXRecordResource.Create` (resource_dns_mx_record.go): a create
error is surfaced directly — there is no zone_conflict adoption in this
handler. -/
def mxCreate (env : RecordEnv) (data : MXRecordModel) :
    OpResult MXRecordModel × List ApiCall :=
  let record : DNSRecord :=
    { name := data.name, destination := data.destination,
      priority := data.priority }
  match env.create data.zone record with
  | .error e =>
    (.err "Client Error" ("Unable to create MX record, got error: " ++ e),
     [.create data.zone record])
  | .ok created =>
    (.ok { data with id := data.zone ++ "/" ++ created.id,
                     recordID := created.id },
     [.create data.zone record])

/-- Go `DNSMXRecordResource.Delete` (resource_dns_mx_record.go lines 186-210):
any delete error — including a 404-shaped one — is surfaced; there is no
not-found tolerance in this handler. -/
def mxDelete (env : RecordEnv) (data : MXRecordModel) :
    OpResult Unit × List ApiCall :=
  match parseRecordID data.id with
  | .error e => (.err "Parse Error" ("Unable to parse ID: " ++ e), [])
  | .ok (zone, recordID) =>
    match env.delete zone recordID with
    | .ok _ => (.ok (), [.delete zone recordID])
    | .error e =>
      (.err "Client Error" ("Unable to delete MX record, got error: " ++ e),
       [.delete zone recordID])

/-- State model of `zone_dns_aaaa_record` (resource_dns_aaaa_record.go
lines 31-39). -/
structure AAAARecordModel where
  id : String := ""
  zone : String := ""
  name : String := ""
  destination : String := ""
  recordID : String := ""
  forceRecreate : Bool := false
deriving Repr, DecidableEq

/-- Go `DNSAAAARecordResource.Update` (resource_dns_aaaa_record.go): an update
error is surfaced directly — there is no zone_conflict / force_recreate
escalation in this handler. -/
def aaaaUpdate (env : RecordEnv) (data : AAAARecordModel) :
    OpResult AAAARecordModel × List ApiCall :=
  match parseRecordID data.id with
  | .error e => (.err "Parse Error" ("Unable to parse ID: " ++ e), [])
  | .ok (zone, recordID) =>
    let record : DNSRecord :=
      { name := data.name, destination := data.destination }
    match env.update zone recordID record with
    | .error e =>
      (.err "Client Error" ("Unable to update AAAA record, got error: " ++ e),
       [.update zone recordID record])
    | .ok _ => (.ok data, [.update zone recordID record])

/-! ## ImportState (identical across all record-kind handlers) -/

/-- Go `ImportState` of every record-kind handler (e.g.
resource_dns_cname_record.go lines 298-311, resource_dns_ns_record.go lines
200-208): `strings.SplitN(req.ID, "/", 2)` must yield exactly two non-empty
pieces; on success the zone is the piece before the first `/` and the
record id is the entire remainder. -/
def importStateParse (id : List Char) : Option (List Char × List Char) :=
  match goSplitN2 '/' id with
  | [a, b] => if a.isEmpty || b.isEmpty then none else some (a, b)
  | _ => none

/-! ## Concrete instances used by witnesses and counterexamples -/

/-- A stored record in zone-relative name form. -/
def hostRecordRel : DNSRecord := { id := "42", name := "host" }

/-- The same stored record in fully-qualified name form. -/
def hostRecordFqdn : DNSRecord := { id := "42", name := "host.example.com" }

/-- A creation error carrying the provider's conflict signal. -/
def conflictMsg : String := "API error (status 422): zone_conflict"

/-- A 404-shaped delete error. -/
def notFoundMsg : String := "API error (status 404): record not found"

/-- Environment for conflict adoption: Create always conflicts, find-by-name
finds the record with id 7. -/
def envAdopt : RecordEnv :=
  { findByName := fun _ _ => .ok (some { id := "7", name := "www" }),
    findAllByName := fun _ _ => .ok [],
    create := fun _ _ => .error conflictMsg,
    update := fun _ _ r => .ok r,
    delete := fun _ _ => .ok () }

/-- Desired state for the adoption scenario. -/
def dataAdopt : CNAMERecordModel :=
  { zone := "example.com", name := "www",
    destination := "target.example.com" }

/-- Environment for the MX counterexample: Create conflicts and a matching
record exists remotely, so the lookup would succeed. -/
def envMXConflict : RecordEnv :=
  { findByName := fun _ _ => .ok (some { id := "9", name := "mail" }),
    findAllByName := fun _ _ => .ok [{ id := "9", name := "mail" }],
    create := fun _ _ => .error conflictMsg,
    update := fun _ _ r => .ok r,
    delete := fun _ _ => .ok () }

/-- Desired MX state for the counterexample. -/
def dataMX : MXRecordModel :=
  { zone := "example.com", name := "mail",
    destination := "mx1.example.com", priority := 10 }

/-- Two duplicate remote records with the same logical name. -/
def dupRecordA : DNSRecord := { id := "71", name := "web" }

/-- Second duplicate. -/
def dupRecordB : DNSRecord := { id := "72", name := "web.example.com" }

/-- Environment for the escalation scenario: Update conflicts, find-all sees
two duplicates, the fresh Create succeeds with id 100. -/
def envEscalate : RecordEnv :=
  { findByName := fun _ _ => .ok (some dupRecordA),
    findAllByName := fun _ _ => .ok [dupRecordA, dupRecordB],
    create := fun _ _ => .ok { id := "100", name := "web" },
    update := fun _ _ _ => .error conflictMsg,
    delete := fun _ _ => .error notFoundMsg }

/-- Desired CNAME state for the escalation scenario. -/
def dataEscalate : CNAMERecordModel :=
  { id := "example.com/55", zone := "example.com", name := "web",
    destination := "target.example.com", recordID := "55",
    forceRecreate := true }

/-- Desired AAAA state for the counterexample: same scenario, escalation
expected by the claim. -/
def dataAAAAConflict : AAAARecordModel :=
  { id := "example.com/55", zone := "example.com", name := "web",
    destination := "2001:db8::1", recordID := "55",
    forceRecreate := true }

/-- Environment where every delete reports 404 (the id is already gone). -/
def envGone : RecordEnv :=
  { findByName := fun _ _ => .ok none,
    findAllByName := fun _ _ => .ok [],
    create := fun _ r => .ok r,
    update := fun _ _ r => .ok r,
    delete := fun _ _ => .error notFoundMsg }

/-- CNAME state whose remote id is already deleted. -/
def cnameGoneData : CNAMERecordModel :=
  { id := "example.com/101", zone := "example.com", name := "old",
    destination := "t.example.com", recordID := "101" }

/-- MX state whose remote id is already deleted. -/
def mxGoneData : MXRecordModel :=
  { id := "example.com/101", zone := "example.com", name := "old",
    destination := "mx1.example.com", priority := 10, recordID := "101" }

/-- Attempt oracle: the first attempt is rate-limited with `Retry-After: 60`;
no further attempt is reached in the cancellation scenario. -/
def backoffCancelResponses : Nat → HttpResult := fun i =>
  if i = 0 then .response { status := 429, retryAfterHeader := some "60" }
  else .netError "unused"

/-- Attempt oracle: every attempt is rate-limited with `Retry-After: 5`. -/
def alwaysRateLimited : Nat → HttpResult := fun _ =>
  .response { status := 429, retryAfterHeader := some "5" }

/-- The 429 response of `alwaysRateLimited`. -/
def resp429 : HttpResponse := { status := 429, retryAfterHeader := some "5" }

/-- Attempt oracle: every attempt is a 500 server error. -/
def alwaysServerError : Nat → HttpResult := fun _ =>
  .response { status := 500, body := "boom" }

/-- The 500 response of `alwaysServerError`. -/
def resp500 : HttpResponse := { status := 500, body := "boom" }

/-- A single-element response array with id 123. -/
def sampleRecordJson : Json :=
  .arr [.obj [("id", .str "123"), ("name", .str "test"),
              ("destination", .str "192.0.2.1")]]

/-- The record that `sampleRecordJson` decodes to. -/
def sampleRecord : DNSRecord :=
  { id := "123", name := "test", destination := "192.0.2.1" }

/-! ## Helper lemmas -/

theorem decodeElems_ok_nil {α : Type} (dec : Json → Except String α)
    (xs : List Json) (h : decodeElems dec xs = .ok []) : xs = [] := by
  cases xs with
  | nil => rfl
  | cons x xs =>
    exfalso
    simp only [decodeElems] at h
    cases hx : dec x with
    | error e => rw [hx] at h; exact Except.noConfusion h
    | ok y =>
      rw [hx] at h
      cases hxs : decodeElems dec xs with
      | error e => rw [hxs] at h; exact Except.noConfusion h
      | ok ys =>
        rw [hxs] at h
        have := Except.ok.inj h
        exact List.noConfusion this

theorem unmarshalDNSRecords_ok_nil (j : Json)
    (h : unmarshalDNSRecords j = .ok []) : j = .null ∨ j = .arr [] := by
  cases j with
  | null => exact Or.inl rfl
  | arr xs =>
    right
    have := decodeElems_ok_nil decodeDNSRecord xs h
    rw [this]
  | bool b => exact absurd h (by simp [unmarshalDNSRecords])
  | num n => exact absurd h (by simp [unmarshalDNSRecords])
  | str s => exact absurd h (by simp [unmarshalDNSRecords])
  | obj fs => exact absurd h (by simp [unmarshalDNSRecords])

theorem findRecordLoop_eq_find (zone name : String)
    (records : List DNSRecord) :
    findRecordLoop ("." ++ zone) (goTrimSuffix name ("." ++ zone)) name
      records = records.find? (nameMatches zone name) := by
  induction records with
  | nil => rfl
  | cons r rs ih =>
    by_cases h : goTrimSuffix r.name ("." ++ zone) =
        goTrimSuffix name ("." ++ zone) ∨ r.name = name
    · simp [findRecordLoop, List.find?_cons, nameMatches, h]
    · simp [findRecordLoop, List.find?_cons, nameMatches, h, ih]

theorem splitFirstChar_eq_some_iff (c : Char) (s a b : List Char) :
    splitFirstChar c s = some (a, b) ↔ s = a ++ c :: b ∧ c ∉ a := by
  induction s generalizing a with
  | nil =>
    constructor
    · intro h; exact Option.noConfusion h
    · rintro ⟨h, -⟩
      exact absurd h.symm (List.append_ne_nil_of_right_ne_nil a (by simp))
  | cons x xs ih =>
    by_cases hx : x = c
    · subst hx
      constructor
      · intro h
        simp only [splitFirstChar, if_pos rfl] at h
        obtain ⟨ha, hb⟩ := Prod.mk.injEq .. ▸ Option.some.inj h
        subst ha; subst hb
        exact ⟨rfl, by simp⟩
      · rintro ⟨hdecomp, hnotin⟩
        cases a with
        | nil =>
          simp only [List.nil_append, List.cons.injEq] at hdecomp
          simp [splitFirstChar, hdecomp.2]
        | cons y a' =>
          simp only [List.cons_append, List.cons.injEq] at hdecomp
          exact absurd (by simp [hdecomp.1]) hnotin
    · constructor
      · intro h
        cases hs : splitFirstChar c xs with
        | none => simp [splitFirstChar, hx, hs] at h
        | some p =>
          obtain ⟨a', b'⟩ := p
          simp only [splitFirstChar, if_neg hx, hs] at h
          obtain ⟨ha, hb⟩ := Prod.mk.injEq .. ▸ Option.some.inj h
          subst hb
          obtain ⟨hxs, hnot⟩ := (ih a').mp hs
          constructor
          · rw [← ha, hxs]; rfl
          · rw [← ha]
            intro hmem
            rcases List.mem_cons.mp hmem with h1 | h2
            · exact hx h1.symm
            · exact hnot h2
      · rintro ⟨hdecomp, hnotin⟩
        cases a with
        | nil =>
          simp only [List.nil_append, List.cons.injEq] at hdecomp
          exact absurd hdecomp.1 hx
        | cons y a' =>
          simp only [List.cons_append, List.cons.injEq] at hdecomp
          have hnot' : c ∉ a' := fun hm => hnotin (List.mem_cons_of_mem y hm)
          have hsplit := (ih a').mpr ⟨hdecomp.2, hnot'⟩
          have hy : ¬y = c := by rw [← hdecomp.1]; exact hx
          rw [hdecomp.1]
          simp [splitFirstChar, hy, hsplit]

theorem importStateParse_eq_some_iff (id z r : List Char) :
    importStateParse id = some (z, r) ↔
      id = z ++ '/' :: r ∧ z ≠ [] ∧ r ≠ [] ∧ '/' ∉ z := by
  constructor
  · intro h
    cases hs : splitFirstChar '/' id with
    | none => simp [importStateParse, goSplitN2, hs] at h
    | some p =>
      obtain ⟨a, b⟩ := p
      simp only [importStateParse, goSplitN2, hs] at h
      by_cases hab : a.isEmpty || b.isEmpty
      · rw [if_pos hab] at h; exact Option.noConfusion h
      · rw [if_neg hab] at h
        obtain ⟨ha, hb⟩ := Prod.mk.injEq .. ▸ Option.some.inj h
        rw [← ha, ← hb]
        obtain ⟨hdecomp, hnot⟩ := (splitFirstChar_eq_some_iff '/' id a b).mp hs
        simp only [Bool.or_eq_true, List.isEmpty_iff, not_or] at hab
        exact ⟨hdecomp, hab.1, hab.2, hnot⟩
  · rintro ⟨hdecomp, hz, hr, hnot⟩
    have hs : splitFirstChar '/' id = some (z, r) :=
      (splitFirstChar_eq_some_iff '/' id z r).mpr ⟨hdecomp, hnot⟩
    simp [importStateParse, goSplitN2, hs, List.isEmpty_iff, hz, hr]

/-! ## Claim theorems -/

theorem deleteCallCount_append (t1 t2 : List ApiCall) :
    deleteCallCount (t1 ++ t2) = deleteCallCount t1 + deleteCallCount t2 := by
  simp [deleteCallCount, List.filter_append]

theorem deleteCallCount_map_delete (zone : String) (recs : List DNSRecord) :
    deleteCallCount (recs.map fun r => ApiCall.delete zone r.id) =
      recs.length := by
  induction recs with
  | nil => rfl
  | cons r rs ih =>
    have hcons : deleteCallCount (ApiCall.delete zone r.id ::
        rs.map fun r => ApiCall.delete zone r.id) =
        deleteCallCount (rs.map fun r => ApiCall.delete zone r.id) + 1 := rfl
    show deleteCallCount (ApiCall.delete zone r.id ::
      rs.map fun r => ApiCall.delete zone r.id) = rs.length + 1
    rw [hcons, ih]

theorem createCallCount_append (t1 t2 : List ApiCall) :
    createCallCount (t1 ++ t2) = createCallCount t1 + createCallCount t2 := by
  simp [createCallCount, List.filter_append]

theorem createCallCount_map_delete (zone : String) (recs : List DNSRecord) :
    createCallCount (recs.map fun r => ApiCall.delete zone r.id) = 0 := by
  induction recs with
  | nil => rfl
  | cons r rs ih =>
    have hcons : createCallCount (ApiCall.delete zone r.id ::
        rs.map fun r => ApiCall.delete zone r.id) =
        createCallCount (rs.map fun r => ApiCall.delete zone r.id) := rfl
    show createCallCount (ApiCall.delete zone r.id ::
      rs.map fun r => ApiCall.delete zone r.id) = 0
    rw [hcons, ih]

/-- C3: for every zone `z`, search name `s` and record list, find-by-name
returns the first record `r` with
`strip_suffix(r.name, "." ++ z) = strip_suffix(s, "." ++ z)` or `r.name = s`,
and returns nothing (without error) when no record matches; in particular a
stored record named "host" or "host.example.com" is found whether the
caller supplies "host" or "host.example.com". -/
theorem find_record_by_name_spec :
    (∀ (zone name : String) (records : List DNSRecord),
        findRecordByName zone name records =
          records.find? (nameMatches zone name))
    ∧ (∀ (zone name : String) (records : List DNSRecord),
        (findRecordByName zone name records = none ↔
          ∀ r ∈ records, ¬ nameMatches zone name r = true))
    ∧ findRecordByName "example.com" "host" [hostRecordRel] =
        some hostRecordRel
    ∧ findRecordByName "example.com" "host.example.com" [hostRecordRel] =
        some hostRecordRel
    ∧ findRecordByName "example.com" "host" [hostRecordFqdn] =
        some hostRecordFqdn
    ∧ findRecordByName "example.com" "host.example.com" [hostRecordFqdn] =
        some hostRecordFqdn := by
  refine ⟨?_, ?_, by decide, by decide, by decide, by decide⟩
  · intro zone name records
    exact findRecordLoop_eq_find zone name records
  · intro zone name records
    rw [findRecordByName, findRecordLoop_eq_find]
    exact List.find?_eq_none

/-- C7 counterexample: the body `null` is valid JSON and is not a
zero-length JSON array, yet the decode reports "empty response from API"
(Go's `json.Unmarshal` turns a JSON `null` into the empty slice without
error), so the claimed "exactly when the body parses as a zero-length JSON
array" is false. -/
theorem parse_empty_response_null_counterexample :
    parseDNSRecordResponse (some Json.null) =
      .error "empty response from API"
    ∧ Json.null ≠ Json.arr [] :=
  ⟨rfl, fun h => Json.noConfusion h⟩

/-- C7 (amended): the single-object array-unwrap decode returns
"empty response from API" exactly when the body unmarshals to a zero-length
record slice — that is, the body is the JSON literal `null` or a zero-length
JSON array; a body that is not valid JSON yields a parse error; a body that
unmarshals to a nonempty record array yields its first element; in
particular decoding `[{"id":"123",...}]` yields the record with id "123". -/
theorem parse_dns_record_response_spec (body : Option Json) :
    (parseDNSRecordResponse body = .error "empty response from API" ↔
      body = some Json.null ∨ body = some (Json.arr []))
    ∧ (body = none →
        parseDNSRecordResponse body =
          .error "error parsing response: invalid JSON")
    ∧ (∀ (j : Json) (r : DNSRecord) (rest : List DNSRecord),
        body = some j → unmarshalDNSRecords j = .ok (r :: rest) →
        parseDNSRecordResponse body = .ok r)
    ∧ parseDNSRecordResponse (some sampleRecordJson) = .ok sampleRecord := by
  refine ⟨?_, ?_, ?_, rfl⟩
  · constructor
    · intro h
      cases body with
      | none =>
        exfalso
        have := Except.error.inj h
        exact absurd (congrArg String.length this) (by decide)
      | some j =>
        cases hj : unmarshalDNSRecords j with
        | error e =>
          exfalso
          simp only [parseDNSRecordResponse, hj] at h
          have hstr := Except.error.inj h
          have hlen := congrArg String.length hstr
          rw [String.length_append] at hlen
          have h1 : ("error parsing response: ").length = 24 := rfl
          have h2 : ("empty response from API").length = 23 := rfl
          omega
        | ok l =>
          cases l with
          | nil =>
            rcases unmarshalDNSRecords_ok_nil j hj with h0 | h0 <;>
              rw [h0] <;> simp
          | cons r rest =>
            exfalso
            simp only [parseDNSRecordResponse, hj] at h
            exact Except.noConfusion h
    · rintro (h | h) <;> subst h <;> rfl
  · rintro rfl; rfl
  · rintro j r rest rfl hj
    simp only [parseDNSRecordResponse, hj]

/-- C7 witness: the amended theorem applied to the sample body. -/
theorem parse_dns_record_response_spec_witness :
    parseDNSRecordResponse (some sampleRecordJson) = .ok sampleRecord :=
  (parse_dns_record_response_spec (some sampleRecordJson)).2.2.1
    sampleRecordJson sampleRecord [] rfl rfl

/-- C8: a `GetDomain` call whose transport succeeds but returns the empty
array — the remote behaviour for an unknown domain name — fails with the
error "domain not found: name". -/
theorem get_domain_not_found (name : String)
    (resp : Except String (Option Json))
    (h : resp = .ok (some (Json.arr []))) :
    getDomain name resp = .error ("domain not found: " ++ name) := by
  subst h; rfl

/-- C8 witness. -/
theorem get_domain_not_found_witness :
    getDomain "missing.example" (.ok (some (Json.arr []))) =
      .error "domain not found: missing.example" :=
  get_domain_not_found "missing.example" _ rfl

/-- C9: `UpdateDomainPreferences` issues exactly one request, a PUT against
the preferences sub-resource path, and the parent domain collection — in
particular the named domain's `autorenew` and `dnssec` fields — is
unchanged by the preferences update. -/
theorem update_domain_preferences_frame (st : ZoneServerState)
    (name : String) (p : DomainPreferences) :
    (runUpdateDomainPreferences st name p).2 =
        [{ method := "PUT", path := "/domain/" ++ name ++ "/preferences",
           body := some (encodeDomainPreferences p) }]
    ∧ (runUpdateDomainPreferences st name p).1.domains = st.domains
    ∧ (((runUpdateDomainPreferences st name p).1.domains.lookup name).map
          Domain.autorenew) =
        ((st.domains.lookup name).map Domain.autorenew)
    ∧ (((runUpdateDomainPreferences st name p).1.domains.lookup name).map
          Domain.dnssec) =
        ((st.domains.lookup name).map Domain.dnssec) :=
  ⟨rfl, rfl, rfl, rfl⟩

/-- C10: every record-kind `ImportState` accepts an import id exactly when
it splits at its first `/` into a non-empty zone and a non-empty remainder;
the zone is the text before the first `/` and the record id is the entire
remainder, so importing "a/b/c" yields zone "a" and record id "b/c". -/
theorem import_state_parse_spec :
    (∀ (id z r : List Char),
        importStateParse id = some (z, r) ↔
          id = z ++ '/' :: r ∧ z ≠ [] ∧ r ≠ [] ∧ '/' ∉ z)
    ∧ importStateParse "a/b/c".toList =
        some ("a".toList, "b/c".toList) :=
  ⟨importStateParse_eq_some_iff, by decide⟩

/-- C1 (amended): for the record kinds whose Create implements conflict
adoption (the CNAME handler embedded here), a Create failing with an error
containing "zone_conflict" followed by a find-by-name lookup that succeeds
and finds a record returns success with the existing record's id adopted
into state and issues exactly one Create call; when the lookup finds
nothing or itself errors, the original creation error is the one surfaced.
Not every record kind implements this: the MX handler's Create surfaces
the creation error directly. -/
theorem cname_create_conflict_adoption
    (env : RecordEnv) (data : CNAMERecordModel) (e : String)
    (hforce : data.forceRecreate = false)
    (hcreate : env.create data.zone
        { name := data.name, destination := data.destination } = .error e)
    (hconflict : goContains e "zone_conflict" = true) :
    (∀ existing : DNSRecord,
        env.findByName data.zone data.name = .ok (some existing) →
        cnameCreate env data =
          (.ok { data with id := data.zone ++ "/" ++ existing.id,
                           recordID := existing.id },
           [.create data.zone
              { name := data.name, destination := data.destination },
            .findByName data.zone data.name]))
    ∧ (env.findByName data.zone data.name = .ok none →
        cnameCreate env data =
          (.err "Client Error"
             ("Unable to create CNAME record, got error: " ++ e),
           [.create data.zone
              { name := data.name, destination := data.destination },
            .findByName data.zone data.name]))
    ∧ (∀ fe : String,
        env.findByName data.zone data.name = .error fe →
        cnameCreate env data =
          (.err "Client Error"
             ("Unable to create CNAME record, got error: " ++ e),
           [.create data.zone
              { name := data.name, destination := data.destination },
            .findByName data.zone data.name]))
    ∧ createCallCount (cnameCreate env data).2 = 1 := by
  have hmain : cnameCreate env data = cnameCreateFresh env data [] := by
    simp [cnameCreate, hforce]
  have hadopt : ∀ existing : DNSRecord,
      env.findByName data.zone data.name = .ok (some existing) →
      cnameCreate env data =
        (.ok { data with id := data.zone ++ "/" ++ existing.id,
                         recordID := existing.id },
         [.create data.zone
            { name := data.name, destination := data.destination },
          .findByName data.zone data.name]) := by
    intro existing hfind
    rw [hmain]
    simp [cnameCreateFresh, hcreate, hconflict, hfind]
  have hnone : env.findByName data.zone data.name = .ok none →
      cnameCreate env data =
        (.err "Client Error"
           ("Unable to create CNAME record, got error: " ++ e),
         [.create data.zone
            { name := data.name, destination := data.destination },
          .findByName data.zone data.name]) := by
    intro hfind
    rw [hmain]
    simp [cnameCreateFresh, hcreate, hconflict, hfind]
  have herr : ∀ fe : String,
      env.findByName data.zone data.name = .error fe →
      cnameCreate env data =
        (.err "Client Error"
           ("Unable to create CNAME record, got error: " ++ e),
         [.create data.zone
            { name := data.name, destination := data.destination },
          .findByName data.zone data.name]) := by
    intro fe hfind
    rw [hmain]
    simp [cnameCreateFresh, hcreate, hconflict, hfind]
  refine ⟨hadopt, hnone, herr, ?_⟩
  cases hfind : env.findByName data.zone data.name with
  | error fe => rw [herr fe hfind]; rfl
  | ok o =>
    cases o with
    | none => rw [hnone hfind]; rfl
    | some existing => rw [hadopt existing hfind]; rfl

/-- C1 witness: the adoption scenario at concrete inputs — Create conflicts,
the lookup finds id 7, and the operation succeeds with id 7 adopted after
exactly one Create and one lookup. -/
theorem cname_create_conflict_adoption_witness :
    cnameCreate envAdopt dataAdopt =
      (.ok { dataAdopt with id := "example.com/7", recordID := "7" },
       [.create "example.com"
          { name := "www", destination := "target.example.com" },
        .findByName "example.com" "www"]) :=
  (cname_create_conflict_adoption envAdopt dataAdopt conflictMsg rfl rfl
      (by decide)).1 { id := "7", name := "www" } rfl

/-- C1 counterexample: the MX record kind. Its Create fails with an error
containing the conflict signal while a find-by-name lookup would succeed
(the environment holds a matching record), yet the operation surfaces the
error without adopting — no lookup is even issued — refuting the claim's
"for every record kind". -/
theorem mx_create_conflict_not_adopted :
    mxCreate envMXConflict dataMX =
      (.err "Client Error"
         ("Unable to create MX record, got error: " ++ conflictMsg),
       [.create "example.com"
          { name := "mail", destination := "mx1.example.com",
            priority := 10 }])
    ∧ goContains conflictMsg "zone_conflict" = true
    ∧ envMXConflict.findByName "example.com" "mail" =
        .ok (some { id := "9", name := "mail" }) :=
  ⟨rfl, by decide, rfl⟩

/-- C2 (amended): for the record kinds whose Update implements the
force-recreate escalation (the CNAME handler embedded here; likewise SRV
and the URL handler in resource_domain.go), an Update failing with the
conflict signal under force_recreate finds all N matching records, issues
one Delete per match without aborting, then exactly one fresh Create whose
id is adopted into state. -/
theorem cname_update_force_recreate_escalation
    (env : RecordEnv) (data : CNAMERecordModel) (zone recordID e : String)
    (recs : List DNSRecord) (created : DNSRecord)
    (hid : parseRecordID data.id = .ok (zone, recordID))
    (hforce : data.forceRecreate = true)
    (hupd : env.update zone recordID
        { name := data.name, destination := data.destination } = .error e)
    (hconf : goContains e "zone_conflict" = true)
    (hfind : env.findAllByName zone data.name = .ok recs)
    (hcreate : env.create zone
        { name := data.name, destination := data.destination } =
        .ok created) :
    cnameUpdate env data =
      (.ok { data with recordID := created.id,
                       id := zone ++ "/" ++ created.id },
       [.update zone recordID
          { name := data.name, destination := data.destination },
        .findAllByName zone data.name]
         ++ recs.map (fun r => ApiCall.delete zone r.id)
         ++ [.create zone
              { name := data.name, destination := data.destination }])
    ∧ (∀ r ∈ recs, ApiCall.delete zone r.id ∈ (cnameUpdate env data).2)
    ∧ deleteCallCount (cnameUpdate env data).2 = recs.length
    ∧ createCallCount (cnameUpdate env data).2 = 1 := by
  have hmain : cnameUpdate env data =
      (.ok { data with recordID := created.id,
                       id := zone ++ "/" ++ created.id },
       [.update zone recordID
          { name := data.name, destination := data.destination },
        .findAllByName zone data.name]
         ++ recs.map (fun r => ApiCall.delete zone r.id)
         ++ [.create zone
              { name := data.name, destination := data.destination }]) := by
    simp [cnameUpdate, hid, hupd, hconf, hforce, hfind, hcreate]
  refine ⟨hmain, ?_, ?_, ?_⟩
  · intro r hr
    rw [hmain]
    simp only [List.mem_append, List.mem_map]
    exact Or.inl (Or.inr ⟨r, hr, rfl⟩)
  · rw [hmain]
    show deleteCallCount (_ ++ _ ++ _) = _
    rw [deleteCallCount_append, deleteCallCount_append,
      deleteCallCount_map_delete]
    show 0 + recs.length + 0 = recs.length
    omega
  · rw [hmain]
    show createCallCount (_ ++ _ ++ _) = _
    rw [createCallCount_append, createCallCount_append,
      createCallCount_map_delete]
    show 0 + 0 + 1 = 1
    omega

/-- C2 witness: the escalation scenario at concrete inputs — the Update
conflicts, find-all sees the two duplicates 71 and 72, both are deleted,
and one fresh Create yields id 100, which is adopted. -/
theorem cname_update_force_recreate_escalation_witness :
    cnameUpdate envEscalate dataEscalate =
      (.ok { dataEscalate with recordID := "100",
                               id := "example.com/100" },
       [.update "example.com" "55"
          { name := "web", destination := "target.example.com" },
        .findAllByName "example.com" "web",
        .delete "example.com" "71",
        .delete "example.com" "72",
        .create "example.com"
          { name := "web", destination := "target.example.com" }]) :=
  (cname_update_force_recreate_escalation envEscalate dataEscalate
      "example.com" "55" conflictMsg [dupRecordA, dupRecordB]
      { id := "100", name := "web" } rfl rfl rfl (by decide) rfl rfl).1

/-- C2 counterexample: the AAAA record kind has force_recreate in its
schema, yet its Update surfaces a conflict error directly: with
force_recreate enabled, an Update hitting the conflict signal while two
duplicates exist issues no Delete and no Create — refuting the claim's
"for every record kind with force_recreate enabled". -/
theorem aaaa_update_conflict_no_escalation :
    aaaaUpdate envEscalate dataAAAAConflict =
      (.err "Client Error"
         ("Unable to update AAAA record, got error: " ++ conflictMsg),
       [.update "example.com" "55"
          { name := "web", destination := "2001:db8::1" }])
    ∧ dataAAAAConflict.forceRecreate = true
    ∧ goContains conflictMsg "zone_conflict" = true
    ∧ envEscalate.findAllByName "example.com" "web" =
        .ok [dupRecordA, dupRecordB]
    ∧ deleteCallCount (aaaaUpdate envEscalate dataAAAAConflict).2 = 0
    ∧ createCallCount (aaaaUpdate envEscalate dataAAAAConflict).2 = 0 :=
  ⟨rfl, rfl, by decide, rfl, rfl, rfl⟩

/-- C6 (code bug): the CNAME Delete treats a 404-shaped delete error as
success, as the claim states, but the MX Delete (and likewise NS) surfaces
the same error as a failure — deleting an already-absent MX id errors
instead of succeeding, contradicting the repository's own changelog entry
"Delete operations are now idempotent - 404 errors are ignored". -/
theorem delete_idempotence_divergence :
    cnameDelete envGone cnameGoneData =
      (.ok (), [.delete "example.com" "101"])
    ∧ mxDelete envGone mxGoneData =
        (.err "Client Error"
           ("Unable to delete MX record, got error: " ++ notFoundMsg),
         [.delete "example.com" "101"])
    ∧ goContains notFoundMsg "404" = true :=
  ⟨by decide, by decide, by decide⟩

/-- C4: with no cancellation, three consecutive 429 responses exhaust the
fixed budget of 3 attempts: each 429 is followed by a backoff sleep of its
parsed Retry-After duration (60 seconds when the header is absent or
unparsable), the call fails with a max-retries error wrapping the last
rate-limit error, and no 4th attempt is issued; a non-429 error response or
a transport error on the first attempt returns immediately after exactly
one attempt with no backoff sleep. -/
theorem retry_loop_spec (responses : Nat → HttpResult) (now : Int)
    (st : RateState) (r0 r1 r2 : HttpResponse) :
    (responses 0 = .response r0 → r0.status = 429 →
     responses 1 = .response r1 → r1.status = 429 →
     responses 2 = .response r2 → r2.status = 429 →
      (doRequestWithContext responses none now st).outcome =
          .maxRetriesExceeded
            (.rateLimit (parseRetryAfter r2.retryAfterHeader)
              (r2.statusMessageHeader.getD ""))
        ∧ (doRequestWithContext responses none now st).attemptsMade = 3
        ∧ (doRequestWithContext responses none now st).sleeps =
            [parseRetryAfter r0.retryAfterHeader,
             parseRetryAfter r1.retryAfterHeader,
             parseRetryAfter r2.retryAfterHeader])
    ∧ (responses 0 = .response r0 → r0.status ≠ 429 →
       r0.status < 200 ∨ r0.status ≥ 300 →
        (doRequestWithContext responses none now st).outcome =
            .failure (.other ("API error (status " ++ toString r0.status
              ++ "): " ++
              (if r0.statusMessageHeader.getD "" = "" then r0.body
               else r0.body ++ " (X-Status-Message: "
                 ++ r0.statusMessageHeader.getD "" ++ ")")))
          ∧ (doRequestWithContext responses none now st).attemptsMade = 1
          ∧ (doRequestWithContext responses none now st).sleeps = [])
    ∧ (∀ emsg : String, responses 0 = .netError emsg →
        (doRequestWithContext responses none now st).outcome =
            .failure (.other ("error performing request: " ++ emsg))
          ∧ (doRequestWithContext responses none now st).attemptsMade = 1
          ∧ (doRequestWithContext responses none now st).sleeps = []) := by
  refine ⟨?_, ?_, ?_⟩
  · intro h0 hs0 h1 hs1 h2 hs2
    refine ⟨?_, ?_, ?_⟩ <;>
      simp [doRequestWithContext, maxRetries, doRequestLoop, ctxDone,
        h0, h1, h2, doRequestOnce, hs0, hs1, hs2, Option.getD]
  · intro h0 hs0 hrange
    refine ⟨?_, ?_, ?_⟩ <;>
      simp [doRequestWithContext, maxRetries, doRequestLoop, ctxDone,
        h0, doRequestOnce, hs0, hrange, Option.getD]
  · intro emsg h0
    refine ⟨?_, ?_, ?_⟩ <;>
      simp [doRequestWithContext, maxRetries, doRequestLoop, ctxDone,
        h0, doRequestOnce, Option.getD]

/-- C4 witness: the theorem at concrete attempt oracles — three 429s with
Retry-After 5 give three attempts, sleeps [5, 5, 5] and a max-retries
outcome wrapping the last rate-limit error; a 500 returns after one
attempt with no sleep. -/
theorem retry_loop_spec_witness :
    ((doRequestWithContext alwaysRateLimited none 0 newClientState).outcome =
        .maxRetriesExceeded (.rateLimit 5 "")
      ∧ (doRequestWithContext alwaysRateLimited none 0
          newClientState).attemptsMade = 3
      ∧ (doRequestWithContext alwaysRateLimited none 0
          newClientState).sleeps = [5, 5, 5])
    ∧ ((doRequestWithContext alwaysServerError none 0 newClientState).outcome =
        .failure (.other "API error (status 500): boom")
      ∧ (doRequestWithContext alwaysServerError none 0
          newClientState).attemptsMade = 1
      ∧ (doRequestWithContext alwaysServerError none 0
          newClientState).sleeps = []) :=
  ⟨(retry_loop_spec alwaysRateLimited 0 newClientState resp429 resp429
      resp429).1 rfl rfl rfl rfl rfl rfl,
   (retry_loop_spec alwaysServerError 0 newClientState resp500 resp500
      resp500).2.1 rfl (by decide) (by decide)⟩

/-- C5 (code bug): cancellation before the first attempt does abort
immediately, but cancellation while the client is blocked in the 429
backoff sleep is only observed after the full sleep: with the context
cancelled at time 1 during a 60-second backoff that started at time 0, the
call returns its cancellation outcome only at time 60 — not promptly —
because both `waitForRateLimit` and the backoff use a plain
non-cancellable `time.Sleep`. -/
theorem cancellation_during_backoff_not_prompt :
    (doRequestWithContext backoffCancelResponses (some 1) 0
        newClientState).outcome = .canceled
    ∧ (doRequestWithContext backoffCancelResponses (some 1) 0
        newClientState).finishTime = 60
    ∧ (doRequestWithContext backoffCancelResponses (some 1) 0
        newClientState).attemptsMade = 1
    ∧ ¬ (doRequestWithContext backoffCancelResponses (some 1) 0
        newClientState).finishTime ≤ 1
    ∧ (doRequestWithContext backoffCancelResponses (some 0) 0
        newClientState).outcome = .canceled
    ∧ (doRequestWithContext backoffCancelResponses (some 0) 0
        newClientState).finishTime = 0
    ∧ (doRequestWithContext backoffCancelResponses (some 0) 0
        newClientState).attemptsMade = 0 :=
  ⟨by decide, by decide, by decide, by decide, by decide, by decide,
   by decide⟩

end ZoneEU
